import Mathlib

/-!
Verification of the Pulse frontend (Dhritijit/Pulse).

This file gives a shallow embedding of the job-progress monitor in
src/frontend/src/components/DataSelection.tsx, the hierarchical audit query
and sentiment percentages in src/frontend/src/components/AnalyticsDashboard.tsx,
and the company-name extraction in src/frontend/src/App.tsx, and settles the
frozen claims about them.

Modelling conventions:
- JavaScript strings are Lean Strings; the JavaScript operations split, trim,
  replace (first occurrence), includes, indexOf, toUpperCase, toLowerCase are
  re-implemented structurally over the character list so that closed instances
  evaluate in the kernel.
- JavaScript truthiness of an optional string (undefined, null and the empty
  string are falsy) is the predicate strTruthy; the idiom (a or b) on strings
  is jsOr.
- The asynchronous handlers of the React component are modelled as a state
  machine: one MonitorState per submitted job, one step function folding a
  list of transport events.  The confirmatory GET performed by pollJobStatus
  is modelled as arriving atomically with the push event that triggered it
  (the carried JobRecord is the server response to that GET); the handlers of
  a single-threaded event loop do not interleave.
- Invocations of the onAnalysisComplete callback are recorded in order in the
  callbackLog field; WebSocket message delivery requires the socket to be
  open (a closed socket delivers nothing).
- Numbers that JavaScript holds as doubles are modelled as exact rationals.
-/

namespace Pulse

/-! ## JavaScript string primitives, structurally implemented -/

/-- Model of the JavaScript s.split(c) for a one-character separator:
splits a character list at every occurrence of c, keeping empty pieces. -/
def jsSplitAux (c : Char) : List Char → List (List Char)
  | [] => [[]]
  | x :: xs =>
    match jsSplitAux c xs with
    | [] => [[]]
    | h :: t => if x == c then [] :: h :: t else (x :: h) :: t

/-- JavaScript s.split(c) on Strings, for a one-character separator. -/
def jsSplit (s : String) (c : Char) : List String :=
  (jsSplitAux c s.data).map String.mk

/-- Whitespace recognised by the model of the JavaScript trim. -/
def isWsp (c : Char) : Bool :=
  c == ' ' || c == '\t' || c == '\n' || c == '\r'

/-- Model of the JavaScript s.trim(): strips whitespace at both ends. -/
def jsTrim (s : String) : String :=
  String.mk (((s.data.dropWhile isWsp).reverse.dropWhile isWsp).reverse)

/-- True when the character list s starts with the character list pat. -/
def startsWithList : List Char → List Char → Bool
  | _, [] => true
  | [], _ :: _ => false
  | a :: as, b :: bs => a == b && startsWithList as bs

/-- Model of the JavaScript s.includes(pat) substring test. -/
def containsSub : List Char → List Char → Bool
  | [], pat => startsWithList [] pat
  | x :: xs, pat => startsWithList (x :: xs) pat || containsSub xs pat

/-- JavaScript s.includes(pat) on Strings. -/
def strIncludes (s pat : String) : Bool :=
  containsSub s.data pat.data

/-- Model of the JavaScript s.replace(pat, empty string) with a string
pattern, which removes only the first occurrence of pat. -/
def removeFirstList (pat : List Char) : List Char → List Char
  | [] => []
  | x :: xs =>
    if startsWithList (x :: xs) pat then (x :: xs).drop pat.length
    else x :: removeFirstList pat xs

/-- JavaScript s.replace(pat, empty string) on Strings (first occurrence). -/
def removeFirst (s pat : String) : String :=
  String.mk (removeFirstList pat.data s.data)

/-- Model of the global JavaScript s.replace(/c/g, d) for one character. -/
def replaceAllChar (s : String) (c d : Char) : String :=
  String.mk (s.data.map (fun x => if x == c then d else x))

/-- JavaScript truthiness of an optional string field: undefined (none) and
the empty string are falsy. -/
def strTruthy : Option String → Bool
  | none => false
  | some s => s != ""

/-- The JavaScript idiom (a or d) on an optional string: the fallback d is
used when a is absent or empty. -/
def jsOr (a : Option String) (d : String) : String :=
  match a with
  | none => d
  | some s => if s == "" then d else s

/-! ## Job progress monitor (DataSelection.tsx) -/

/-- The opaque analysis result payload carried by a completed job record.
A JSON object is always truthy, so presence (some) is what the guard
job.results in pollJobStatus tests. -/
structure Results where
  payload : String
deriving DecidableEq

/-- The fields of a WebSocket status event that ws.onmessage reads:
data.status, data.progress and data.message (a push event carries no
result payload). -/
structure StatusData where
  status : String
  progress : Int
  message : String
deriving DecidableEq

/-- The job record returned by the GET issued in pollJobStatus
(response.data): status, optional results, optional error. -/
structure JobRecord where
  status : String
  results : Option Results
  error : Option String
deriving DecidableEq

/-- The local component state of DataSelection relevant to one job, plus
callbackLog, the ordered record of onAnalysisComplete invocations. -/
structure MonitorState where
  isAnalyzing : Bool
  progress : Int
  statusMessage : String
  wsOpen : Bool
  currentJobId : Option String
  callbackLog : List Results
deriving DecidableEq

/-- Transport events hitting the component after submission.  A wsMessage
carries the parsed push payload together with the job record the
confirmatory GET of pollJobStatus would return at that moment (none models
a failed GET, which pollJobStatus catches and only logs).  stop is a click
of the Stop button; ok tells whether the DELETE request succeeded. -/
inductive MEvent where
  | wsMessage (data : StatusData) (server : Option JobRecord)
  | wsError
  | wsClose
  | stop (ok : Bool)
deriving DecidableEq

/-- The string shown for job.error in the failed branch of pollJobStatus;
an absent error renders as undefined in the template literal. -/
def errStr : Option String → String
  | none => "undefined"
  | some e => e

/-- The body of pollJobStatus applied to a received job record: on status
completed with populated results it stops the spinner, forces progress to
100 and invokes onAnalysisComplete with job.results; on status failed it
stops the spinner and shows the error; otherwise it does nothing. -/
def applyJob (job : JobRecord) (s : MonitorState) : MonitorState :=
  if job.status == "completed" then
    match job.results with
    | some r =>
      { s with isAnalyzing := false, progress := 100,
               statusMessage := "Analysis completed!",
               callbackLog := s.callbackLog ++ [r] }
    | none => s
  else if job.status == "failed" then
    { s with isAnalyzing := false,
             statusMessage := "Error: " ++ errStr job.error }
  else s

/-- One transport event processed by the handlers installed in
connectWebSocket and by handleStopAnalysis.  ws.onmessage (delivered only
while the socket is open) unconditionally overwrites progress and message,
and on status completed runs the confirmatory poll; ws.onerror and
ws.onclose only log; a successful stop resets the local fields, shows
Analysis cancelled and closes the socket. -/
def step (s : MonitorState) : MEvent → MonitorState
  | .wsMessage data server =>
    if s.wsOpen then
      let s1 := { s with progress := data.progress,
                         statusMessage := data.message }
      if data.status == "completed" then
        match server with
        | some job => applyJob job s1
        | none => s1
      else s1
    else s
  | .wsError => s
  | .wsClose => { s with wsOpen := false }
  | .stop ok =>
    match s.currentJobId with
    | none => s
    | some _ =>
      if ok then
        { s with isAnalyzing := false, progress := 0,
                 statusMessage := "Analysis cancelled", wsOpen := false }
      else s

/-- Folding a list of transport events through the component handlers. -/
def run (s : MonitorState) (es : List MEvent) : MonitorState :=
  es.foldl step s

/-- The component state right after a successful submission in
handleStartAnalysis: spinner on, progress 0, socket opened on the returned
job id, no callback fired yet. -/
def initState (jid : String) : MonitorState :=
  { isAnalyzing := true, progress := 0,
    statusMessage := "Starting analysis...",
    wsOpen := true, currentJobId := some jid, callbackLog := [] }

/-- Channel events are the events originating from the transports (push
messages, errors, closes), as opposed to the user clicking Stop. -/
def isChannelEvent : MEvent → Bool
  | .stop _ => false
  | _ => true

/-! ## Submission validation (handleStartAnalysis) -/

/-- The two input methods of the DataSelection component. -/
inductive InputMethod where
  | webscraping
  | upload
deriving DecidableEq

/-- An uploaded file payload. -/
structure FileVal where
  name : String
deriving DecidableEq

/-- What handleStartAnalysis does before any server response arrives:
either it aborts with an alert before any network call (rejected), or it
sends the URL-analysis POST, or it sends the file-upload POST. -/
inductive SubmitOutcome where
  | rejected (msg : String)
  | urlRequest (urls : List String) (maxReviews : Nat) (numTopics : Nat)
  | fileRequest (file : FileVal)
deriving DecidableEq

/-- The URL list built in handleStartAnalysis: split the textarea on
newlines and keep the lines whose trim is truthy (non-empty). -/
def urlListOf (urls : String) : List String :=
  (jsSplit urls '\n').filter (fun u => jsTrim u != "")

/-- The branching of handleStartAnalysis up to the first network call:
in webscraping mode an empty URL list aborts with an alert, otherwise the
URL POST is sent (any selected file is ignored); in upload mode a missing
file aborts with an alert, otherwise the upload POST is sent. -/
def handleStartAnalysis (m : InputMethod) (urls : String)
    (file : Option FileVal) (maxReviews : Nat) : SubmitOutcome :=
  match m with
  | .webscraping =>
    let urlList := urlListOf urls
    if urlList.isEmpty then .rejected "Please enter at least one URL"
    else .urlRequest urlList maxReviews 5
  | .upload =>
    match file with
    | none => .rejected "Please select a file"
    | some f => .fileRequest f

/-! ## Analytics dashboard: audit query (AnalyticsDashboard.tsx) -/

/-- One entry of results.reviews as the dashboard reads it; every field the
component dereferences is optional in the loosely typed JSON. -/
structure Review where
  text : Option String
  review_text : Option String
  source_url : Option String
  url : Option String
  rating : Option Int
  date : Option String
deriving DecidableEq

/-- One entry of results.topic_assignments, parallel to the reviews list. -/
structure Assignment where
  level1_id : String
  level2_topic : Option String
deriving DecidableEq

/-- One entry of results.sentiment_results. -/
structure SentimentResult where
  sentiment : Option String
deriving DecidableEq

/-- One entry of a level-1 node's level2_topics list. -/
structure Level2Topic where
  name : String
  count : Nat
  percentage : ℚ
  percentage_of_total : ℚ
deriving DecidableEq

/-- One entry of results.hierarchical_stats (a level-1 hierarchy node). -/
structure Level1Stat where
  level1_id : String
  level1_name : String
  level1_count : Nat
  level1_percentage : ℚ
  level2_topics : List Level2Topic
deriving DecidableEq

/-- The projection shown in the review-audit modal. -/
structure AuditRecord where
  text : String
  sentiment : String
  source_url : String
  rating : Option Int
  date : Option String
deriving DecidableEq

/-- The filter predicate of handleReviewAudit at one review index: the
assignment at that index must exist; when the level2Name argument is truthy
(present and non-empty) both the level-1 id and the level-2 topic must
match, otherwise only the level-1 id. -/
def matchesTopic (assignments : List Assignment) (level1Id : String)
    (level2Name : Option String) (idx : Nat) : Bool :=
  match assignments[idx]? with
  | none => false
  | some a =>
    if strTruthy level2Name then
      a.level1_id == level1Id && a.level2_topic == level2Name
    else
      a.level1_id == level1Id

/-- The sentiment shown for a review in the audit modal: the first entry of
sentiment_results whose index points back (by equality of the review value,
modelling the reference equality test reviews[i] === review on the distinct
objects of a parsed JSON array) at this review; a missing entry or falsy
sentiment renders as unknown. -/
def sentimentFor (reviews : List Review)
    (sentiments : Option (List SentimentResult)) (review : Review) : String :=
  match sentiments with
  | none => "unknown"
  | some ss =>
    match ss.enum.find? (fun p => reviews[p.1]? == some review) with
    | some p => jsOr p.2.sentiment "unknown"
    | none => "unknown"

/-- The audit projection built in the map of handleReviewAudit, with the
fallbacks review.text or review.review_text or the explicit placeholder,
and review.source_url or review.url or Unknown source. -/
def auditRecordOf (reviews : List Review)
    (sentiments : Option (List SentimentResult)) (r : Review) : AuditRecord :=
  { text := jsOr r.text (jsOr r.review_text "No review text"),
    sentiment := sentimentFor reviews sentiments r,
    source_url := jsOr r.source_url (jsOr r.url "Unknown source"),
    rating := r.rating,
    date := r.date }

/-- handleReviewAudit: looks the level-1 id up in hierarchical_stats and
returns without producing records when it is absent; otherwise filters
reviews by index through matchesTopic and maps each matched review to its
audit projection (the list stored in selectedReviews for the modal). -/
def handleReviewAudit (stats : List Level1Stat) (reviews : List Review)
    (assignments : List Assignment)
    (sentiments : Option (List SentimentResult))
    (level1Id : String) (level2Name : Option String) :
    Option (List AuditRecord) :=
  match stats.find? (fun st => st.level1_id == level1Id) with
  | none => none
  | some _ =>
    some (((reviews.enum.filter
        (fun p => matchesTopic assignments level1Id level2Name p.1)).map
          Prod.snd).map (auditRecordOf reviews sentiments))

/-- Modelled from the spec: the membership test of the Audit Query contract,
an item matches when its topicAssignment has the queried level1Id and, when
a level2Name is supplied, also that level2Name. -/
def specMatchWords (oa : Option Assignment) (level1Id : String)
    (level2Name : Option String) : Bool :=
  match oa with
  | none => false
  | some a =>
    match level2Name with
    | none => a.level1_id == level1Id
    | some l2 => a.level1_id == level1Id && a.level2_topic == some l2

/-- The sublist of reviews whose parallel assignment matches the queried
node in the sense of the spec words. -/
def specMatched (reviews : List Review) (assignments : List Assignment)
    (level1Id : String) (level2Name : Option String) : List Review :=
  (reviews.enum.filter
    (fun p => specMatchWords assignments[p.1]? level1Id level2Name)).map
      Prod.snd

/-- The number of items whose topic assignment maps to the queried node. -/
def matchedCount (reviews : List Review) (assignments : List Assignment)
    (level1Id : String) (level2Name : Option String) : Nat :=
  (specMatched reviews assignments level1Id level2Name).length

/-! ## Analytics dashboard: sentiment percentages -/

/-- The slice of the results object read by the sentiment metric cards. -/
structure ResultsData where
  total_reviews : Option Nat
  sentiment_results : Option (List SentimentResult)
deriving DecidableEq

/-- results.total_reviews or 0. -/
def totalReviews (res : ResultsData) : Nat :=
  res.total_reviews.getD 0

/-- Count of sentiment_results entries with the given sentiment label
(0 when the list is absent, via optional chaining). -/
def sentCount (res : ResultsData) (lab : String) : Nat :=
  match res.sentiment_results with
  | none => 0
  | some ss => (ss.filter (fun r => r.sentiment == some lab)).length

/-- Decimal digit to character. -/
def digitChar (d : Nat) : Char :=
  match d with
  | 0 => '0' | 1 => '1' | 2 => '2' | 3 => '3' | 4 => '4'
  | 5 => '5' | 6 => '6' | 7 => '7' | 8 => '8' | _ => '9'

/-- Decimal digit list of a natural number, by fuel (fuel at least n + 1). -/
def natReprAux : Nat → Nat → List Char
  | 0, _ => []
  | fuel + 1, n =>
    if n < 10 then [digitChar n]
    else natReprAux fuel (n / 10) ++ [digitChar (n % 10)]

/-- Decimal string of a natural number. -/
def natRepr (n : Nat) : String :=
  String.mk (natReprAux (n + 1) n)

/-- Model of the JavaScript x.toFixed(1) for a non-negative value: round to
the nearest tenth, half away from zero, and print with one decimal. -/
def toFixed1 (q : ℚ) : String :=
  let n : ℤ := ⌊q * 10 + 1 / 2⌋
  natRepr (n / 10).toNat ++ "." ++ natRepr (n % 10).toNat

/-- The displayed percentage for one sentiment label: the guard total > 0
chooses between the literal 0.0 and count / total * 100 to one decimal. -/
def sentimentPercentage (res : ResultsData) (lab : String) : String :=
  if 0 < totalReviews res then
    toFixed1 ((sentCount res lab : ℚ) / (totalReviews res : ℚ) * 100)
  else "0.0"

/-- positivePercentage as computed by AnalyticsDashboard. -/
def positivePercentage (res : ResultsData) : String :=
  sentimentPercentage res "positive"

/-- negativePercentage as computed by AnalyticsDashboard. -/
def negativePercentage (res : ResultsData) : String :=
  sentimentPercentage res "negative"

/-- neutralPercentage as computed by AnalyticsDashboard. -/
def neutralPercentage (res : ResultsData) : String :=
  sentimentPercentage res "neutral"

/-! ## Company-name extraction (App.tsx) -/

/-- The two fields of the parsed URL object that extractCompanyName reads. -/
structure URLParts where
  hostname : String
  pathname : String
deriving DecidableEq

/-- Word capitalisation of formatCompanyName: first character upper-cased,
rest lower-cased. -/
def capitalizeWord (w : String) : String :=
  String.mk ((w.data.take 1).map Char.toUpper ++ (w.data.drop 1).map Char.toLower)

/-- formatCompanyName: dashes and underscores to spaces, then capitalise
every space-separated word. -/
def formatCompanyName (name : String) : String :=
  String.intercalate " "
    ((jsSplit (replaceAllChar (replaceAllChar name '-' ' ') '_' ' ') ' ').map
      capitalizeWord)

/-- The default branch of extractCompanyName: the first label of the domain
(after stripping the first www.). -/
def defaultLabel (domain : String) : String :=
  (jsSplit domain '.').headD ""

/-- The raw (pre-formatting) name selected by extractCompanyName from a
parsed URL: the path segment after review on trustpilot.com, the third path
segment on glassdoor.com, the path segment after biz on yelp.com, else the
first domain label; each site branch falls through to the default when its
path probe finds nothing truthy. -/
def rawNameOf (u : URLParts) : String :=
  let domain := removeFirst u.hostname "www."
  if strIncludes domain "trustpilot.com" then
    let pathParts := jsSplit u.pathname '/'
    match pathParts.findIdx? (· == "review") with
    | some ci =>
      match pathParts[ci + 1]? with
      | some p => if p != "" then p else defaultLabel domain
      | none => defaultLabel domain
    | none => defaultLabel domain
  else if strIncludes domain "glassdoor.com" then
    let pathParts := jsSplit u.pathname '/'
    match pathParts[2]? with
    | some p => p
    | none => defaultLabel domain
  else if strIncludes domain "yelp.com" then
    let pathParts := jsSplit u.pathname '/'
    match pathParts.findIdx? (· == "biz") with
    | some bi =>
      match pathParts[bi + 1]? with
      | some p => if p != "" then p else defaultLabel domain
      | none => defaultLabel domain
    | none => defaultLabel domain
  else defaultLabel domain

/-- extractCompanyName, transcribed branch by branch, parametrised by the
platform URL parser (the constructor new URL throws exactly when the parser
returns none, and the try/catch turns that into the fallback name). -/
def extractCompanyName (parse : String → Option URLParts) (url : String) :
    String :=
  match parse url with
  | none => "Unknown Company"
  | some u =>
    let domain := removeFirst u.hostname "www."
    if strIncludes domain "trustpilot.com" then
      let pathParts := jsSplit u.pathname '/'
      match pathParts.findIdx? (· == "review") with
      | some ci =>
        match pathParts[ci + 1]? with
        | some p =>
          if p != "" then formatCompanyName p
          else formatCompanyName (defaultLabel domain)
        | none => formatCompanyName (defaultLabel domain)
      | none => formatCompanyName (defaultLabel domain)
    else if strIncludes domain "glassdoor.com" then
      let pathParts := jsSplit u.pathname '/'
      match pathParts[2]? with
      | some p => formatCompanyName p
      | none => formatCompanyName (defaultLabel domain)
    else if strIncludes domain "yelp.com" then
      let pathParts := jsSplit u.pathname '/'
      match pathParts.findIdx? (· == "biz") with
      | some bi =>
        match pathParts[bi + 1]? with
        | some p =>
          if p != "" then formatCompanyName p
          else formatCompanyName (defaultLabel domain)
        | none => formatCompanyName (defaultLabel domain)
      | none => formatCompanyName (defaultLabel domain)
    else formatCompanyName (defaultLabel domain)

/-! ## Shared lemmas about the monitor state machine -/

theorem run_nil (s : MonitorState) : run s [] = s := rfl

theorem run_cons (s : MonitorState) (e : MEvent) (es : List MEvent) :
    run s (e :: es) = run (step s e) es := rfl

/-- A state on which every event acts as the identity is a fixpoint of any
event sequence. -/
theorem run_fix (s : MonitorState) (hfix : ∀ e, step s e = s) :
    ∀ es : List MEvent, run s es = s := by
  intro es
  induction es with
  | nil => rfl
  | cons e es ih => rw [run_cons, hfix e, ih]

/-- The cancelled local state (socket closed, spinner off, progress 0,
message Analysis cancelled) is left unchanged by every further event. -/
theorem cancelled_fixpoint (s : MonitorState)
    (h1 : s.wsOpen = false) (h2 : s.isAnalyzing = false)
    (h3 : s.progress = 0) (h4 : s.statusMessage = "Analysis cancelled") :
    ∀ e, step s e = s := by
  intro e
  cases e with
  | wsMessage data server => simp [step, h1]
  | wsError => rfl
  | wsClose => cases s; simp_all [step]
  | stop ok =>
    cases hc : s.currentJobId with
    | none => simp [step, hc]
    | some j =>
      cases ok with
      | true => cases s; simp_all [step]
      | false => simp [step, hc]

/-- A processed event leaves the callback log unchanged unless it is a push
message carrying a confirmatory job record with status completed and
populated results, in which case exactly that result is appended. -/
theorem callbackLog_step (s : MonitorState) (e : MEvent) (r : Results)
    (hr : r ∈ (step s e).callbackLog) :
    r ∈ s.callbackLog ∨
      ∃ data job, e = MEvent.wsMessage data (some job) ∧
        job.status = "completed" ∧ job.results = some r := by
  cases e with
  | wsError => exact Or.inl hr
  | wsClose => exact Or.inl hr
  | stop ok =>
    left
    have hlog : (step s (.stop ok)).callbackLog = s.callbackLog := by
      simp only [step]
      cases s.currentJobId with
      | none => rfl
      | some j => cases ok <;> rfl
    rwa [hlog] at hr
  | wsMessage data server =>
    by_cases ho : s.wsOpen
    case neg => simp only [step, ho, if_false] at hr; exact Or.inl hr
    case pos =>
      by_cases hd : data.status == "completed"
      case neg => simp only [step, ho, if_true, hd, if_false] at hr; exact Or.inl hr
      case pos =>
        cases server with
        | none => simp only [step, ho, hd, if_true] at hr; exact Or.inl hr
        | some job =>
          have hstep : step s (.wsMessage data (some job)) =
              applyJob job { s with progress := data.progress,
                                    statusMessage := data.message } := by
            simp [step, ho, hd]
          rw [hstep] at hr
          unfold applyJob at hr
          by_cases hj : job.status == "completed"
          · cases hres : job.results with
            | some r0 =>
              simp only [hj, hres, if_true, List.mem_append,
                List.mem_singleton] at hr
              rcases hr with h | h
              · exact Or.inl h
              · refine Or.inr ⟨data, job, rfl, by simpa using hj, ?_⟩
                rw [hres, h]
            | none => simp only [hj, hres, if_true] at hr; exact Or.inl hr
          · by_cases hf : job.status == "failed" <;>
              simp only [hj, hf, if_true, if_false] at hr <;> exact Or.inl hr

/-! ## C1: exactly-once completion -/

/-- C1 counterexample: two completed push events on the same job, each
confirmed by a fetch whose record is completed with populated results, make
onAnalysisComplete fire twice — there is no single-use latch, so the
callback is not invoked exactly once per job. -/
theorem c1_counterexample :
    (run (initState "job1")
      [MEvent.wsMessage ⟨"completed", 100, "done"⟩
        (some ⟨"completed", some ⟨"res"⟩, none⟩),
       MEvent.wsMessage ⟨"completed", 100, "done"⟩
        (some ⟨"completed", some ⟨"res"⟩, none⟩)]).callbackLog.length = 2 := by
  decide

/-- C1 amended: the completion callback fires once per delivered completed
push event whose confirmatory fetch returns a completed record with
populated results; k such events produce exactly k invocations (exactly
once only when exactly one such event is delivered). -/
theorem c1_completion_per_confirmed_event (s : MonitorState)
    (hopen : s.wsOpen = true) (k : Nat) (data : StatusData) (job : JobRecord)
    (r : Results) (hd : data.status = "completed")
    (hj : job.status = "completed") (hr : job.results = some r) :
    (run s (List.replicate k (MEvent.wsMessage data (some job)))).callbackLog
      = s.callbackLog ++ List.replicate k r := by
  induction k generalizing s with
  | zero => simp [run]
  | succ n ih =>
    have hstep : step s (MEvent.wsMessage data (some job)) =
        { s with isAnalyzing := false, progress := 100,
                 statusMessage := "Analysis completed!",
                 callbackLog := s.callbackLog ++ [r] } := by
      simp [step, hopen, hd, applyJob, hj, hr]
    rw [List.replicate_succ, run_cons, hstep,
      ih { s with isAnalyzing := false, progress := 100,
                  statusMessage := "Analysis completed!",
                  callbackLog := s.callbackLog ++ [r] } hopen]
    simp [List.replicate_succ]

/-- C1 witness: two confirmed completed events on a fresh job log exactly
two callback invocations. -/
theorem c1_witness :
    (run (initState "job1")
      (List.replicate 2 (MEvent.wsMessage ⟨"completed", 100, "done"⟩
        (some ⟨"completed", some ⟨"res"⟩, none⟩)))).callbackLog
      = List.replicate 2 ⟨"res"⟩ := by
  have h := c1_completion_per_confirmed_event (initState "job1") rfl 2
    ⟨"completed", 100, "done"⟩ ⟨"completed", some ⟨"res"⟩, none⟩ ⟨"res"⟩
    rfl rfl rfl
  simpa [initState] using h

/-! ## C2: monotonic progress -/

/-- C2 counterexample: after an event at progress 50, a non-terminal event
at progress 30 overwrites the stored progress down to 30 — the stored
progress is not non-decreasing and the lower event is not discarded. -/
theorem c2_counterexample :
    (run (initState "job1")
      [MEvent.wsMessage ⟨"running", 50, "halfway"⟩ none]).progress = 50
  ∧ (run (initState "job1")
      [MEvent.wsMessage ⟨"running", 50, "halfway"⟩ none,
       MEvent.wsMessage ⟨"running", 30, "stale"⟩ none]).progress = 30
  ∧ (30 : Int) < 50 := by
  decide

/-- C2 amended: a delivered non-terminal push event always overwrites the
stored progress with its own value, even when that value is lower than the
currently stored one — there is no monotonic guard. -/
theorem c2_progress_overwrite (s : MonitorState) (data : StatusData)
    (server : Option JobRecord) (hopen : s.wsOpen = true)
    (hst : data.status ≠ "completed") :
    (step s (MEvent.wsMessage data server)).progress = data.progress := by
  have hb : (data.status == "completed") = false := by
    simpa using hst
  simp [step, hopen, hb]

/-- C2 witness: from stored progress 50, a running event at 30 leaves the
stored progress at 30. -/
theorem c2_witness :
    (step { initState "job1" with progress := 50 }
      (MEvent.wsMessage ⟨"running", 30, "stale"⟩ none)).progress = 30 :=
  c2_progress_overwrite { initState "job1" with progress := 50 }
    ⟨"running", 30, "stale"⟩ none rfl (by decide)

/-! ## C3: pull-channel fallback on push-channel failure -/

/-- C3 counterexample: the push channel silently closes at progress 40 with
no terminal event; the job later reaches completed on the server (the third
event carries a completed record with results, which would be delivered to
the handlers were any channel still listening), yet the completion callback
never fires and progress stays at 40 — no pull channel is started as a
fallback, ws.onerror and ws.onclose only log. -/
theorem c3_counterexample :
    (run (initState "job1")
      [MEvent.wsMessage ⟨"running", 40, "scraping"⟩ none,
       MEvent.wsClose,
       MEvent.wsMessage ⟨"completed", 100, "done"⟩
         (some ⟨"completed", some ⟨"res"⟩, none⟩)]).callbackLog = []
  ∧ (run (initState "job1")
      [MEvent.wsMessage ⟨"running", 40, "scraping"⟩ none,
       MEvent.wsClose,
       MEvent.wsMessage ⟨"completed", 100, "done"⟩
         (some ⟨"completed", some ⟨"res"⟩, none⟩)]).progress = 40 := by
  decide

/-- C3 amended: when the push channel errors or closes before a terminal
status, the monitor starts no pull channel and performs no recovery at all:
once the socket is closed, every further channel event leaves the component
state (and therefore the callback log) unchanged, so a job that later
completes never triggers the completion callback. -/
theorem c3_no_fallback (s : MonitorState) (es : List MEvent)
    (hclosed : s.wsOpen = false)
    (hch : ∀ e ∈ es, isChannelEvent e = true) :
    run s es = s := by
  induction es with
  | nil => rfl
  | cons e es ih =>
    have hstep : step s e = s := by
      cases e with
      | wsMessage data server => simp [step, hclosed]
      | wsError => rfl
      | wsClose => cases s; simp_all [step]
      | stop ok =>
        have := hch (MEvent.stop ok) (List.mem_cons_self _ _)
        simp [isChannelEvent] at this
    rw [run_cons, hstep]
    exact ih (fun e he => hch e (List.mem_cons_of_mem _ he))

/-- C3 witness: with the socket closed at progress 40, a completed push
event, an error and a close all leave the state untouched. -/
theorem c3_witness :
    run { initState "job1" with wsOpen := false, progress := 40 }
      [MEvent.wsMessage ⟨"completed", 100, "done"⟩
        (some ⟨"completed", some ⟨"res"⟩, none⟩),
       MEvent.wsError, MEvent.wsClose]
      = { initState "job1" with wsOpen := false, progress := 40 } :=
  c3_no_fallback { initState "job1" with wsOpen := false, progress := 40 }
    _ rfl (by decide)

/-! ## C4: submission validation -/

/-- C4 counterexample: with the webscraping method selected, a non-empty
URL list and a simultaneously selected file payload, handleStartAnalysis
sends the URL-analysis request — it neither raises a ValidationError nor
stops before the network call, contradicting the claim that a submission
carrying both inputs fails before any network call. -/
theorem c4_counterexample :
    handleStartAnalysis InputMethod.webscraping
      "https://www.trustpilot.com/review/acme.com"
      (some ⟨"reviews.csv"⟩) 500
    = SubmitOutcome.urlRequest
        ["https://www.trustpilot.com/review/acme.com"] 500 5 := by
  decide

/-- C4 amended: validation looks only at the field of the selected input
method and aborts with an alert, not a ValidationError: in webscraping mode
an empty URL list is rejected before any network call and a selected file
is ignored (when URLs are present the request is always sent, file or not);
in upload mode a missing file is rejected before any network call. -/
theorem c4_validation_per_mode (urls : String) (file : Option FileVal)
    (maxReviews : Nat) :
    (urlListOf urls = [] →
      handleStartAnalysis InputMethod.webscraping urls file maxReviews
        = SubmitOutcome.rejected "Please enter at least one URL")
  ∧ (urlListOf urls ≠ [] →
      handleStartAnalysis InputMethod.webscraping urls file maxReviews
        = SubmitOutcome.urlRequest (urlListOf urls) maxReviews 5)
  ∧ handleStartAnalysis InputMethod.upload urls none maxReviews
      = SubmitOutcome.rejected "Please select a file" := by
  refine ⟨fun h => ?_, fun h => ?_, rfl⟩
  · simp [handleStartAnalysis, h]
  · simp [handleStartAnalysis, List.isEmpty_iff, h]

/-- C4 witness: an empty textarea in webscraping mode with a file selected
is rejected before any network call, and upload mode with no file is
rejected before any network call. -/
theorem c4_witness :
    handleStartAnalysis InputMethod.webscraping "" (some ⟨"reviews.csv"⟩) 500
      = SubmitOutcome.rejected "Please enter at least one URL"
  ∧ handleStartAnalysis InputMethod.upload "https://a.example" none 500
      = SubmitOutcome.rejected "Please select a file" :=
  ⟨(c4_validation_per_mode "" (some ⟨"reviews.csv"⟩) 500).1 (by decide),
   (c4_validation_per_mode "https://a.example" none 500).2.2⟩

/-! ## C5: cancellation is latched -/

/-- C5 (confirmed): after a successful cancel on the current job, the local
state shows Analysis cancelled with the spinner off and the callback log
unchanged, and that cancelled state is a fixpoint of every subsequent event
sequence: a late-arriving completed push event is not delivered (the socket
was closed by the cancel) and so never invokes the completion callback, and
pressing Stop again leaves the state unchanged — an idempotent no-op. -/
theorem c5_cancel_latch (s : MonitorState) (jid : String)
    (hjob : s.currentJobId = some jid) :
    (step s (MEvent.stop true)).statusMessage = "Analysis cancelled"
  ∧ (step s (MEvent.stop true)).isAnalyzing = false
  ∧ (step s (MEvent.stop true)).callbackLog = s.callbackLog
  ∧ ∀ es : List MEvent, run (step s (MEvent.stop true)) es
      = step s (MEvent.stop true) := by
  have hstep : step s (MEvent.stop true) =
      { s with isAnalyzing := false, progress := 0,
               statusMessage := "Analysis cancelled", wsOpen := false } := by
    simp [step, hjob]
  refine ⟨by rw [hstep], by rw [hstep], by rw [hstep], ?_⟩
  intro es
  exact run_fix _ (cancelled_fixpoint _ (by rw [hstep]) (by rw [hstep])
    (by rw [hstep]) (by rw [hstep])) es

/-- C5 witness: on a fresh job, cancel shows Analysis cancelled, and a
late completed push event followed by a second Stop click change nothing. -/
theorem c5_witness :
    (step (initState "job1") (MEvent.stop true)).statusMessage
      = "Analysis cancelled"
  ∧ run (step (initState "job1") (MEvent.stop true))
      [MEvent.wsMessage ⟨"completed", 100, "late"⟩
        (some ⟨"completed", some ⟨"res"⟩, none⟩),
       MEvent.stop true]
      = step (initState "job1") (MEvent.stop true) := by
  have h := c5_cancel_latch (initState "job1") "job1" rfl
  exact ⟨h.1, h.2.2.2 _⟩

/-! ## C6: completion results come from the confirmatory fetch -/

/-- C6 (confirmed): every result ever passed to the completion callback was
already logged initially or comes from the confirmatory pull-channel fetch
of some processed push event, whose full job record had status completed
and a populated results field; a push payload (which carries only status,
progress and message) never supplies the result directly. -/
theorem c6_callback_provenance (s : MonitorState) (es : List MEvent)
    (r : Results) (hr : r ∈ (run s es).callbackLog) :
    r ∈ s.callbackLog ∨
      ∃ data job, MEvent.wsMessage data (some job) ∈ es ∧
        job.status = "completed" ∧ job.results = some r := by
  induction es generalizing s with
  | nil => exact Or.inl hr
  | cons e es ih =>
    rw [run_cons] at hr
    rcases ih _ hr with h | ⟨data, job, hmem, hj, hres⟩
    · rcases callbackLog_step s e r h with h2 | ⟨data, job, he, hj, hres⟩
      · exact Or.inl h2
      · exact Or.inr ⟨data, job, by rw [he]; exact List.mem_cons_self _ _,
          hj, hres⟩
    · exact Or.inr ⟨data, job, List.mem_cons_of_mem _ hmem, hj, hres⟩

/-- C6 witness: on a fresh job with one confirmed completed event, the
logged result is traced back to a completed job record with populated
results fetched for a processed push event. -/
theorem c6_witness :
    (⟨"res"⟩ : Results) ∈ (initState "job1").callbackLog ∨
      ∃ data job,
        MEvent.wsMessage data (some job) ∈
          [MEvent.wsMessage ⟨"completed", 100, "done"⟩
            (some ⟨"completed", some ⟨"res"⟩, none⟩)] ∧
        job.status = "completed" ∧ job.results = some ⟨"res"⟩ :=
  c6_callback_provenance (initState "job1")
    [MEvent.wsMessage ⟨"completed", 100, "done"⟩
      (some ⟨"completed", some ⟨"res"⟩, none⟩)]
    ⟨"res"⟩ (by decide)

/-! ## Shared lemmas about the audit query -/

/-- The code filter predicate agrees with the spec membership predicate at
every index whenever the supplied level2Name is not the empty string (the
truthiness test in the code treats an empty name as absent). -/
theorem matchesTopic_eq_specMatchWords (assignments : List Assignment)
    (level1Id : String) (level2Name : Option String)
    (hl2 : ∀ x, level2Name = some x → x ≠ "") (i : Nat) :
    matchesTopic assignments level1Id level2Name i
      = specMatchWords assignments[i]? level1Id level2Name := by
  unfold matchesTopic specMatchWords
  cases assignments[i]? with
  | none => rfl
  | some a =>
    cases level2Name with
    | none => simp [strTruthy]
    | some l2 =>
      have h : l2 ≠ "" := hl2 l2 rfl
      simp [strTruthy, h]

/-- When the queried level-1 id occurs in hierarchical_stats and the
level2Name argument is not the empty string, handleReviewAudit returns
exactly the spec-matched reviews, each mapped to its audit projection. -/
theorem audit_spec_eq (stats : List Level1Stat) (reviews : List Review)
    (assignments : List Assignment)
    (sentiments : Option (List SentimentResult))
    (level1Id : String) (level2Name : Option String) (st : Level1Stat)
    (hfind : stats.find? (fun s => s.level1_id == level1Id) = some st)
    (hl2 : ∀ x, level2Name = some x → x ≠ "") :
    handleReviewAudit stats reviews assignments sentiments level1Id level2Name
      = some ((specMatched reviews assignments level1Id level2Name).map
          (auditRecordOf reviews sentiments)) := by
  unfold handleReviewAudit specMatched
  rw [hfind]
  have hfun : (fun p : Nat × Review =>
      matchesTopic assignments level1Id level2Name p.1)
    = (fun p : Nat × Review =>
      specMatchWords assignments[p.1]? level1Id level2Name) := by
    funext p
    exact matchesTopic_eq_specMatchWords assignments level1Id level2Name hl2 p.1
  rw [hfun]

/-! ## C7: audit query returns exactly the matching items -/

/-- C7 counterexample: for a level1Id that does not occur in
hierarchical_stats, handleReviewAudit returns early and produces no audit
records at all, even though an item whose topic assignment carries exactly
that level1Id exists (the spec membership predicate accepts it) — so the
query does not return the matching items for every level1Id. -/
theorem c7_counterexample :
    handleReviewAudit [] [⟨some "great product", none, none, none, none, none⟩]
      [⟨"billing", none⟩] none "billing" none = none
  ∧ specMatchWords (some ⟨"billing", none⟩) "billing" none = true := by
  decide

/-- C7 amended: for every level1Id that occurs in hierarchical_stats (for
any other the handler returns without records) and every level2Name that is
either absent or non-empty (an empty name is treated by the code as
absent), the audit query returns exactly the items whose topic assignment
matches, in order, each matched item producing exactly one audit record,
and a record whose review has no truthy text and no truthy review_text
carries the placeholder No review text instead of being dropped. -/
theorem c7_audit_query (stats : List Level1Stat) (reviews : List Review)
    (assignments : List Assignment)
    (sentiments : Option (List SentimentResult))
    (level1Id : String) (level2Name : Option String) (st : Level1Stat)
    (hfind : stats.find? (fun s => s.level1_id == level1Id) = some st)
    (hl2 : ∀ x, level2Name = some x → x ≠ "") :
    handleReviewAudit stats reviews assignments sentiments level1Id level2Name
      = some ((specMatched reviews assignments level1Id level2Name).map
          (auditRecordOf reviews sentiments))
  ∧ (∀ recs, handleReviewAudit stats reviews assignments sentiments level1Id
        level2Name = some recs →
      recs.length = matchedCount reviews assignments level1Id level2Name)
  ∧ (∀ r : Review, strTruthy r.text = false → strTruthy r.review_text = false →
      (auditRecordOf reviews sentiments r).text = "No review text") := by
  have heq := audit_spec_eq stats reviews assignments sentiments level1Id
    level2Name st hfind hl2
  refine ⟨heq, fun recs hrecs => ?_, fun r h1 h2 => ?_⟩
  · rw [heq] at hrecs
    cases hrecs
    simp [matchedCount]
  · unfold auditRecordOf jsOr
    cases ht : r.text with
    | none =>
      cases hrt : r.review_text with
      | none => rfl
      | some s =>
        have : s = "" := by simpa [strTruthy, hrt] using h2
        simp [this]
    | some s =>
      have hs : s = "" := by simpa [strTruthy, ht] using h1
      cases hrt : r.review_text with
      | none => simp [hs]
      | some s2 =>
        have : s2 = "" := by simpa [strTruthy, hrt] using h2
        simp [hs, this]

/-- C7 witness: one review with no text assigned to billing, hierarchy
containing billing — the query returns exactly that item as one record. -/
theorem c7_witness :
    handleReviewAudit [⟨"billing", "Billing", 1, 0, []⟩]
      [⟨none, none, none, none, none, none⟩] [⟨"billing", none⟩]
      none "billing" none
    = some ((specMatched [⟨none, none, none, none, none, none⟩]
        [⟨"billing", none⟩] "billing" none).map
          (auditRecordOf [⟨none, none, none, none, none, none⟩] none)) :=
  (c7_audit_query [⟨"billing", "Billing", 1, 0, []⟩]
    [⟨none, none, none, none, none, none⟩] [⟨"billing", none⟩]
    none "billing" none ⟨"billing", "Billing", 1, 0, []⟩
    (by decide) (fun x hx => by cases hx)).1

/-! ## C8: audit count equals the hierarchy node count -/

/-- C8 counterexample: a hierarchy in which every node count satisfies the
claimed precondition (each count equals the number of items whose
assignment maps to that node), containing under level-1 id x a level-2 node
named by the empty string with count 1; querying the pair (x, empty name)
returns 2 audit records, because the code treats the empty name as absent
and filters by the level-1 id alone — the record count differs from the
node count. -/
theorem c8_counterexample :
    matchedCount [⟨some "a", none, none, none, none, none⟩,
        ⟨some "b", none, none, none, none, none⟩]
      [⟨"x", some ""⟩, ⟨"x", some "y"⟩] "x" (some "") = 1
  ∧ matchedCount [⟨some "a", none, none, none, none, none⟩,
        ⟨some "b", none, none, none, none, none⟩]
      [⟨"x", some ""⟩, ⟨"x", some "y"⟩] "x" (some "y") = 1
  ∧ matchedCount [⟨some "a", none, none, none, none, none⟩,
        ⟨some "b", none, none, none, none, none⟩]
      [⟨"x", some ""⟩, ⟨"x", some "y"⟩] "x" none = 2
  ∧ (handleReviewAudit
      [⟨"x", "X", 2, 0, [⟨"", 1, 0, 0⟩, ⟨"y", 1, 0, 0⟩]⟩]
      [⟨some "a", none, none, none, none, none⟩,
       ⟨some "b", none, none, none, none, none⟩]
      [⟨"x", some ""⟩, ⟨"x", some "y"⟩] none "x" (some "")).map List.length
    = some 2 := by
  decide

/-- C8 amended: for every pair (level1Id, level2Name) present in the
hierarchy whose level2Name is non-empty (for an empty name the query
filters by the level-1 id alone), if the node count equals the number of
items whose topic assignment maps to that node, then the audit query
returns exactly that many audit records. -/
theorem c8_audit_count (stats : List Level1Stat) (reviews : List Review)
    (assignments : List Assignment)
    (sentiments : Option (List SentimentResult))
    (level1Id level2 : String) (st : Level1Stat) (t : Level2Topic)
    (hfind : stats.find? (fun s => s.level1_id == level1Id) = some st)
    (_ht : t ∈ st.level2_topics) (_hname : t.name = level2) (hne : level2 ≠ "")
    (hcount : t.count = matchedCount reviews assignments level1Id (some level2)) :
    ∃ recs, handleReviewAudit stats reviews assignments sentiments level1Id
        (some level2) = some recs ∧ recs.length = t.count := by
  have hl2 : ∀ x, (some level2 : Option String) = some x → x ≠ "" := by
    intro x hx
    injection hx with h
    rw [← h]
    exact hne
  refine ⟨_, audit_spec_eq stats reviews assignments sentiments level1Id
    (some level2) st hfind hl2, ?_⟩
  rw [hcount]
  simp [matchedCount]

/-- C8 witness: one review assigned to (x, y), hierarchy node (x, y) with
count 1 — the audit query returns exactly 1 record. -/
theorem c8_witness :
    ∃ recs, handleReviewAudit [⟨"x", "X", 1, 0, [⟨"y", 1, 0, 0⟩]⟩]
        [⟨some "a", none, none, none, none, none⟩] [⟨"x", some "y"⟩]
        none "x" (some "y") = some recs ∧ recs.length = 1 :=
  c8_audit_count [⟨"x", "X", 1, 0, [⟨"y", 1, 0, 0⟩]⟩]
    [⟨some "a", none, none, none, none, none⟩] [⟨"x", some "y"⟩]
    none "x" "y" ⟨"x", "X", 1, 0, [⟨"y", 1, 0, 0⟩]⟩ ⟨"y", 1, 0, 0⟩
    (by decide) (by decide) rfl (by decide) (by decide)

/-! ## C9: company-name extraction is total -/

/-- C9 (confirmed): extractCompanyName never throws: when the URL parser
fails it returns the fallback Unknown Company, and on every parseable URL
it returns formatCompanyName (the Title-Case formatter) applied to the raw
name selected by the recognised review-site path rules or, by default, to
the first domain label — the selection captured by rawNameOf. -/
theorem c9_extract_total (parse : String → Option URLParts) (url : String) :
    (parse url = none → extractCompanyName parse url = "Unknown Company")
  ∧ (∀ u, parse url = some u →
      extractCompanyName parse url = formatCompanyName (rawNameOf u)) := by
  constructor
  · intro h
    unfold extractCompanyName
    rw [h]
  · intro u h
    unfold extractCompanyName rawNameOf
    rw [h]
    dsimp only
    repeat first
    | rfl
    | split

/-- C9 witness: an unparseable string yields Unknown Company; a Trustpilot
review URL yields the formatted path segment after review. -/
theorem c9_witness :
    extractCompanyName (fun _ => none) "definitely not a url"
      = "Unknown Company"
  ∧ extractCompanyName
      (fun _ => some ⟨"www.trustpilot.com", "/review/acme-corp.com"⟩)
      "https://www.trustpilot.com/review/acme-corp.com"
      = "Acme Corp.com" := by
  constructor
  · exact (c9_extract_total (fun _ => none) "definitely not a url").1 rfl
  · have h := (c9_extract_total
      (fun _ => some ⟨"www.trustpilot.com", "/review/acme-corp.com"⟩)
      "https://www.trustpilot.com/review/acme-corp.com").2
      ⟨"www.trustpilot.com", "/review/acme-corp.com"⟩ rfl
    rw [h]
    decide

/-! ## C10: guarded sentiment percentages -/

/-- C10 (confirmed): when the stored total review count is zero or absent
all three displayed sentiment percentages are the guarded literal 0.0 (no
division is attempted), and when the total is positive each displayed
percentage is that sentiment count divided by the total, times 100, printed
to one decimal. -/
theorem c10_percentages (res : ResultsData) :
    (totalReviews res = 0 →
      positivePercentage res = "0.0" ∧ negativePercentage res = "0.0"
        ∧ neutralPercentage res = "0.0")
  ∧ (0 < totalReviews res →
      positivePercentage res
        = toFixed1 ((sentCount res "positive" : ℚ) / (totalReviews res : ℚ) * 100)
      ∧ negativePercentage res
        = toFixed1 ((sentCount res "negative" : ℚ) / (totalReviews res : ℚ) * 100)
      ∧ neutralPercentage res
        = toFixed1 ((sentCount res "neutral" : ℚ) / (totalReviews res : ℚ) * 100)) := by
  constructor
  · intro h
    refine ⟨?_, ?_, ?_⟩ <;>
      simp [positivePercentage, negativePercentage, neutralPercentage,
        sentimentPercentage, h]
  · intro h
    refine ⟨?_, ?_, ?_⟩ <;>
      simp [positivePercentage, negativePercentage, neutralPercentage,
        sentimentPercentage, h]

/-- C10 witness: an absent total displays 0.0 even with a positive
sentiment entry present, and a total of 4 with one positive entry displays
25.0. -/
theorem c10_witness :
    positivePercentage ⟨none, some [⟨some "positive"⟩]⟩ = "0.0"
  ∧ positivePercentage ⟨some 4, some [⟨some "positive"⟩]⟩ = "25.0" := by
  constructor
  · exact ((c10_percentages ⟨none, some [⟨some "positive"⟩]⟩).1 rfl).1
  · have h := ((c10_percentages ⟨some 4, some [⟨some "positive"⟩]⟩).2
      (by decide)).1
    have hc : sentCount ⟨some 4, some [⟨some "positive"⟩]⟩ "positive" = 1 := by
      decide
    have htot : totalReviews ⟨some 4, some [⟨some "positive"⟩]⟩ = 4 := rfl
    rw [h, hc, htot]
    have hq : ((1 : Nat) : ℚ) / ((4 : Nat) : ℚ) * 100 = 25 := by norm_num
    rw [hq]
    unfold toFixed1
    have hf : (⌊(25 : ℚ) * 10 + 1 / 2⌋ : ℤ) = 250 := by norm_num
    rw [hf]
    decide

end Pulse
